import Mathlib

/-!
Verification development for the crawlr relay crawler.

The repository contains several iterations of the same Nostr relay
crawler.  The modules embedded here, with Go source locations:

* `Main1`   — the program in `main.go` (normalizeURL, shouldExcludeRelay,
  CrawlRelay, allOnlineRelaysCrawled, parseRelayList, markRelayOffline).
* `CrawlGo` — the scheduler loop of `crawl.go` (crawlClearOnlineRelays).
* `Crawlr2` — the classifier of `crawlr2/utils.go` (classifyRelay,
  isMalformedRelay, isLocalRelay, isOnionRelay, isAPIRelay, isReservedIP,
  normalizeURL) in its final variant, the one with the TLD check and the
  clearAPI category.
* `Fetch`   — the message loops of `crawl.go` (receiveMessages /
  handleMessage) and `crawlr2/main.go` (ReqKind10002).
* `Sched`   — the counting semaphore of crawlClearOnlineRelays.

String handling is modelled over `List Char`.  Go specifics that matter
here: `strings.ToLower` is modelled for ASCII (all URLs considered are
ASCII); `net/url.Parse` is modelled for the absolute URL shapes this
program feeds it, namely `scheme://host[:port][/path]` — on such inputs
the Go parse never fails, so the parse-error branches of the source
are dead in the model and noted at each definition; `u.Hostname()` takes
the authority up to the first colon (Go stripPort), with the bracketed
IPv6 form handled as in Go; `net.ParseIP` is modelled for dotted-quad
IPv4 literals (rejecting empty or non-digit octets, leading zeros and
values above 255), which are the only IP literals the claims concern.
-/

/-- Decides whether the character is an ASCII digit, as Go
`unicode.IsDigit` does on ASCII input. -/
def charIsDigit (c : Char) : Bool := 48 ≤ c.toNat && c.toNat ≤ 57

/-- Decides whether the character is an ASCII letter; this is exactly the
character class `[a-zA-Z]` of the TLD regular expression in
`crawlr2/utils.go`. -/
def charIsAlpha (c : Char) : Bool :=
  (65 ≤ c.toNat && c.toNat ≤ 90) || (97 ≤ c.toNat && c.toNat ≤ 122)

/-- Lowers one ASCII letter, as Go `strings.ToLower` does on ASCII. -/
def charLower (c : Char) : Char :=
  if 65 ≤ c.toNat && c.toNat ≤ 90 then Char.ofNat (c.toNat + 32) else c

/-- Tests whether the first list starts with the second, mirroring Go
`strings.HasPrefix` on the underlying characters. -/
def startsWithL : List Char → List Char → Bool
  | _, [] => true
  | [], _ :: _ => false
  | a :: as, b :: bs => a == b && startsWithL as bs

/-- Go `strings.HasPrefix s pat`. -/
def strStarts (s pat : String) : Bool := startsWithL s.data pat.data

/-- Go `strings.HasSuffix s pat`. -/
def strEnds (s pat : String) : Bool := startsWithL s.data.reverse pat.data.reverse

/-- Go `strings.ToLower`, modelled for ASCII. -/
def strLower (s : String) : String := String.mk (s.data.map charLower)

/-- Splits a character list at every occurrence of `sep`; on strings this
agrees with Go `strings.Split s (String.singleton sep)`. -/
def splitOnChar (sep : Char) : List Char → List (List Char)
  | [] => [[]]
  | c :: t =>
    if c == sep then [] :: splitOnChar sep t
    else
      match splitOnChar sep t with
      | [] => [[c]]
      | h :: r => (c :: h) :: r

/-- Dot-separated parts of a string, used both by the modelled
`net.ParseIP` and by the TLD regular expression check. -/
def dotParts (s : String) : List (List Char) := splitOnChar '.' s.data

/-- Takes the authority part of what follows the scheme: Go `net/url`
ends the host-and-port section at the first `/`, `?` or `#`. -/
def hostPortChars (l : List Char) : List Char :=
  l.takeWhile (fun c => !(c == '/' || c == '?' || c == '#'))

/-- Go `url.URL.Hostname()` (its `stripPort`): if the authority has no
colon it is returned whole; a bracketed IPv6 authority is cut at `]` and
stripped of the leading bracket; otherwise everything before the first
colon is returned. -/
def hostnameChars (hp : List Char) : List Char :=
  if hp.contains ':' then
    if hp.contains ']' then
      match hp.takeWhile (fun c => !(c == ']')) with
      | '[' :: t => t
      | l => l
    else hp.takeWhile (fun c => !(c == ':'))
  else hp

/-- Splits a URL of the only two schemes this program accepts into the
scheme and the remainder after `://`.  Go `net/url.Parse` lower-cases the
scheme; since the source always checks the literal `ws://` / `wss://`
byte prefixes first, extracting by those prefixes is equivalent on every
string that reaches the parse.  Strings with neither prefix parse in Go
with an empty host (they become opaque or path-only URLs), returned here
as `none`. -/
def schemeRest (l : List Char) : Option (List Char × List Char) :=
  if startsWithL l "ws://".data then some ("ws".data, l.drop 5)
  else if startsWithL l "wss://".data then some ("wss".data, l.drop 6)
  else none

/-- Go `url.Parse(s).Hostname()` for the URL shapes this program handles;
scheme-less strings have an empty host. -/
def goHostname (s : String) : String :=
  match schemeRest s.data with
  | none => ""
  | some (_, rest) => String.mk (hostnameChars (hostPortChars rest))

/-- Go `url.Parse(s).Path` for the URL shapes this program handles.  Only
`isAPIRelay` reads it, and only after the malformed check has already
required a `ws://` or `wss://` scheme, so the scheme-less branch is dead
there. -/
def goPath (s : String) : String :=
  match schemeRest s.data with
  | none => ""
  | some (_, rest) =>
    let hp := hostPortChars rest
    String.mk ((rest.drop hp.length).takeWhile (fun c => !(c == '?' || c == '#')))

/-- Membership in a list of strings, mirroring lookup in a Go
`map[string]bool`. -/
def memStr : List String → String → Bool
  | [], _ => false
  | h :: t, k => h == k || memStr t k

namespace Crawlr2

/-- Relay categories of `crawlr2`, from `constants.go`. -/
inductive RelayCategory where
  | clearOnline
  | clearOffline
  | clearAPI
  | onion
  | local
  | malformed
deriving DecidableEq, BEq

/-- Source `crawlr2/utils.go normalizeURL`: `strings.TrimRight(url, "/")`
(drop every trailing slash) then `strings.ToLower`. -/
def normalizeURL (s : String) : String :=
  strLower (String.mk ((s.data.reverse.dropWhile (fun c => c == '/')).reverse))

/-- Last element of a nonempty list of character lists. -/
def lastPart : List (List Char) → List Char
  | [] => []
  | [p] => p
  | _ :: t => lastPart t

/-- Source `crawlr2/utils.go` TLD check: the regular expression
`\.[a-zA-Z]{2,}$` matches the host exactly when the segment after the
final dot exists, has length at least two and is all ASCII letters. -/
def hasValidTLD (host : String) : Bool :=
  match dotParts host with
  | [] => false
  | [_] => false
  | ps => (2 ≤ (lastPart ps).length) && (lastPart ps).all charIsAlpha

/-- Source `crawlr2/utils.go isMalformedRelay` (final variant): a URL is
malformed when it starts with a quote, lacks a `ws://`/`wss://` scheme,
fails to parse (dead branch on the inputs modelled), or its host fails
the TLD regular expression. -/
def isMalformedRelay (s : String) : Bool :=
  strStarts s "\"" || (!strStarts s "ws://" && !strStarts s "wss://")
    || !hasValidTLD (goHostname s)

/-- Value of a list of ASCII digit characters. -/
def digitsVal (l : List Char) : Nat :=
  l.foldl (fun acc c => acc * 10 + (c.toNat - 48)) 0

/-- Parses one IPv4 octet the way Go `net.ParseIP` accepts it: nonempty,
all digits, no leading zero, value at most 255. -/
def parseOctet (l : List Char) : Option Nat :=
  if l.isEmpty || !(l.all charIsDigit) || (1 < l.length && l.headD '0' == '0') then
    none
  else if digitsVal l ≤ 255 then some (digitsVal l) else none

/-- Go `net.ParseIP` restricted to dotted-quad IPv4 literals. -/
def parseIPv4 (s : String) : Option (Nat × Nat × Nat × Nat) :=
  match dotParts s with
  | [a, b, c, d] =>
    match parseOctet a, parseOctet b, parseOctet c, parseOctet d with
    | some x, some y, some z, some w => some (x, y, z, w)
    | _, _, _, _ => none
  | _ => none

/-- Go `ip.IsLoopback()` on an IPv4 address: the 127.0.0.0/8 block. -/
def isLoopbackIP (ip : Nat × Nat × Nat × Nat) : Bool := ip.1 == 127

/-- Source `crawlr2/utils.go isReservedIP` (final variant): RFC1918
private blocks, RFC6598 CGN, RFC1122 loopback, RFC3927 link-local,
RFC5737 documentation nets, multicast, reserved-for-future-use, and the
broadcast address. -/
def isReservedIP (ip : Nat × Nat × Nat × Nat) : Bool :=
  match ip with
  | (a, b, c, d) =>
    (a == 10) || (a == 172 && 16 ≤ b && b ≤ 31) || (a == 192 && b == 168)
      || (a == 100 && 64 ≤ b && b ≤ 127) || (a == 127) || (a == 169 && b == 254)
      || (a == 192 && b == 0 && c == 2) || (a == 198 && b == 51 && c == 100)
      || (a == 203 && b == 0 && c == 113) || (224 ≤ a && a ≤ 239) || (240 ≤ a)
      || (a == 255 && b == 255 && c == 255 && d == 255)

/-- Source `crawlr2/utils.go isLocalRelay` (final variant): host ends in
`.local`, or parses as an IP literal that is loopback or reserved. -/
def isLocalRelay (s : String) : Bool :=
  let host := goHostname s
  strEnds host ".local" ||
    (match parseIPv4 host with
     | some ip => isLoopbackIP ip || isReservedIP ip
     | none => false)

/-- Source `crawlr2/utils.go isOnionRelay`: host ends in `.onion`. -/
def isOnionRelay (s : String) : Bool := strEnds (goHostname s) ".onion"

/-- Source `crawlr2/utils.go isAPIRelay`: the URL has a path other than
`/` (the parse-error branch is dead on the inputs modelled). -/
def isAPIRelay (s : String) : Bool :=
  let p := goPath s
  !(p == "") && !(p == "/")

/-- Source `crawlr2/utils.go classifyRelay` (final variant): normalize,
then first match wins among malformed, local, onion, clearAPI,
clearOnline.  The Go function increments the map of the chosen category;
the model returns that category. -/
def classifyRelay (s : String) : RelayCategory :=
  let n := normalizeURL s
  if isMalformedRelay n then .malformed
  else if isLocalRelay n then .local
  else if isOnionRelay n then .onion
  else if isAPIRelay n then .clearAPI
  else .clearOnline

end Crawlr2

namespace Main1

/-- Event alphabet of the retry loop of `CrawlRelay` (main.go lines
130-145): an attempt with its outcome, the inter-retry sleep, and the
terminal map insertions. -/
inductive Ev where
  | attempt (ok : Bool)
  | sleep
  | markOffline
  | markCrawled
deriving DecidableEq, BEq

/-- Source `main.go CrawlRelay` retry loop, as the trace of events it
emits from loop index `retry` with the given number of remaining
iterations (`maxRetries - retry`): each failed attempt is followed by a
sleep unless it was the last iteration; a success ends the call at once;
exhausting the loop emits `markOffline`. -/
def crawlRelayFrom (res : Nat → Bool) : Nat → Nat → List Ev
  | _, 0 => [Ev.markOffline]
  | retry, rem + 1 =>
    if res retry then [Ev.attempt true]
    else Ev.attempt false ::
      ((if 0 < rem then [Ev.sleep] else []) ++ crawlRelayFrom res (retry + 1) rem)

/-- Whole retry loop of `CrawlRelay` for a given `maxRetries`. -/
def crawlRelayLoopTrace (maxRetries : Nat) (res : Nat → Bool) : List Ev :=
  crawlRelayFrom res 0 maxRetries

/-- The per-relay behaviour the claim describes for a permanently failing
relay, written from the claim: exactly `maxRetries` failed attempts, a
backoff sleep strictly between consecutive attempts and not after the
last, and the offline mark only once all attempts are exhausted. -/
def claimRetryTrace : Nat → List Ev
  | 0 => [Ev.markOffline]
  | 1 => [Ev.attempt false, Ev.markOffline]
  | n + 2 => Ev.attempt false :: Ev.sleep :: claimRetryTrace (n + 1)

/-- Whether some event of the trace is an attempt. -/
def isAttempt : Ev → Bool
  | .attempt _ => true
  | _ => false

/-- Whether a backoff sleep occurs after the final fetch attempt of the
trace. -/
def sleepAfterLastAttempt (tr : List Ev) : Bool :=
  (tr.reverse.takeWhile (fun e => !isAttempt e)).contains Ev.sleep

end Main1

namespace CrawlGo

/-- Source `crawl.go crawlClearOnlineRelays` per-relay loop (lines
194-215), as its event trace from loop index `i` with the given number of
remaining iterations: on failure the relay is moved to `clearOffline`,
marked crawled, and the backoff sleep runs — all inside the loop body, on
every failed iteration including the last; on success the relay is marked
crawled and the loop breaks. -/
def crawlClearFrom (res : Nat → Bool) : Nat → Nat → List Main1.Ev
  | _, 0 => []
  | i, rem + 1 =>
    if res i then [Main1.Ev.attempt true, Main1.Ev.markCrawled]
    else [Main1.Ev.attempt false, Main1.Ev.markOffline, Main1.Ev.markCrawled,
      Main1.Ev.sleep] ++ crawlClearFrom res (i + 1) rem

/-- Whole per-relay loop for a given `maxTries` (1 in `constants.go`). -/
def crawlClearLoopTrace (maxTries : Nat) (res : Nat → Bool) : List Main1.Ev :=
  crawlClearFrom res 0 maxTries

end CrawlGo

namespace Fetch

/-- Messages a relay connection can deliver, as far as the loops inspect
them: an EOSE frame for the subscription, an EVENT frame, or anything
else. -/
inductive WsMsg where
  | eose
  | event (tags : List (List String))
  | other
deriving DecidableEq, BEq

/-- How the stream ends after the listed messages: a clean close
(`io.EOF`), the context deadline expiring, or a transport read error. -/
inductive WsEnd where
  | eof
  | timeout
  | readErr
deriving DecidableEq, BEq

/-- Whether `handleMessage` would recognise the frame as EOSE
(`response[0] == "EOSE"`). -/
def isEOSE : WsMsg → Bool
  | .eose => true
  | _ => false

/-- Source `crawl.go receiveMessages` with `handleMessage`: the loop
reads every queued message — `handleMessage` returns nil on EOSE but the
loop only logs that result and keeps reading — and ends with the stream:
nil on a clean close, a timeout error once the context deadline fires, a
receive error otherwise.  Returns the outcome and how many messages were
read. -/
def receiveMessages : List WsMsg → WsEnd → Except String Unit × Nat
  | [], .eof => (Except.ok (), 0)
  | [], .timeout => (Except.error "timeout: no response from relay", 0)
  | [], .readErr => (Except.error "receive error", 0)
  | _ :: rest, e =>
    let p := receiveMessages rest e
    (p.1, p.2 + 1)

/-- Source `crawlr2/main.go ReqKind10002` receive loop: reads messages
until the first EOSE frame (success, stop reading), returning how many
messages were read; `none` when the stream holds no EOSE, in which case
the outcome is decided by the close instead. -/
def reqKind10002Reads : List WsMsg → Option Nat
  | [] => none
  | m :: rest =>
    if isEOSE m then some 1 else (reqKind10002Reads rest).map (· + 1)

end Fetch

namespace Sched

/-- Source `crawl.go crawlClearOnlineRelays` admission semaphore `sem :=
make(chan struct{}, concurrency)`: a history of acquisitions (`true`,
the blocking `sem <- struct{}{}` before the fetch goroutine) and releases
(`false`, the deferred `<-sem` after it).  Returns the number of held
slots after the history, or `none` when the history is not realizable —
an acquisition cannot happen while the channel is full, nor a release
while it is empty. -/
def runSem (cap : Nat) : List Bool → Nat → Option Nat
  | [], h => some h
  | true :: t, h => if h < cap then runSem cap t (h + 1) else none
  | false :: t, h => if 0 < h then runSem cap t (h - 1) else none

end Sched


namespace Main1

/-- Source `main.go RelayInfo`: one record per discovered relay.  The Go
zero value of `Offline` is `false` at creation. -/
structure RelayInfo where
  url : String
  count : Nat
  discoveredBy : String
  offline : Bool
deriving DecidableEq

/-- Source `main.go normalizeURL`: `strings.ToLower` then
`strings.TrimSuffix(..., "/")` — one trailing slash dropped. -/
def normalizeURL (s : String) : String :=
  let t := strLower s
  if strEnds t "/" then String.mk t.data.dropLast else t

/-- Source `main.go shouldExcludeRelay`: hostname ends in `.onion` or
`.local`, or starts with `192.168.` or `127.0.0.` (the parse-error branch
is dead on the inputs modelled). -/
def shouldExcludeRelay (s : String) : Bool :=
  let h := goHostname s
  strEnds h ".onion" || strEnds h ".local"
    || strStarts h "192.168." || strStarts h "127.0.0."

/-- Scheme and hostname under which `parseRelayList` (main.go lines
252-268) files a discovered tag URL: `.onion`-suffixed strings are
skipped, then only `ws://`/`wss://` strings survive, then the URL is
rebuilt as `scheme://hostname`, dropping port and path and keeping the
case of the host. -/
def keyPair (u : String) : Option (String × String) :=
  if strEnds u ".onion" then none
  else if strStarts u "ws://" then
    some ("ws", String.mk (hostnameChars (hostPortChars (u.data.drop 5))))
  else if strStarts u "wss://" then
    some ("wss", String.mk (hostnameChars (hostPortChars (u.data.drop 6))))
  else none

/-- The string key actually stored: `fmt.Sprintf("%s://%s", scheme,
hostname)`. -/
def mkKey (p : String × String) : String := p.1 ++ "://" ++ p.2

/-- Map key of a tag URL in the `relays` map, when the URL survives the
filters of `parseRelayList`. -/
def storageKey (u : String) : Option String := (keyPair u).map mkKey

/-- Lookup in the `relays` map, modelled as an association list. -/
def lookupRelay : List (String × RelayInfo) → String → Option RelayInfo
  | [], _ => none
  | (k, r) :: t, key => if k == key then some r else lookupRelay t key

/-- In-place `relayInfo.Count++` of `parseRelayList`. -/
def bumpCount : List (String × RelayInfo) → String → List (String × RelayInfo)
  | [], _ => []
  | (k, r) :: t, key =>
    if k == key then (k, { r with count := r.count + 1 }) :: t
    else (k, r) :: bumpCount t key

/-- Source `main.go parseRelayList` lines 277-289, the mutex-guarded
registration: an absent key gets a fresh record with Count 1 and the
initiating relay as discoverer; a present key only has its Count
incremented. -/
def registerRelay (rs : List (String × RelayInfo)) (key disc : String) :
    List (String × RelayInfo) :=
  match lookupRelay rs key with
  | some _ => bumpCount rs key
  | none => rs ++ [(key, ⟨key, 1, disc, false⟩)]

/-- Shared state of the main.go program: the `relays` map and the
`crawledRelays` / `offlineRelays` sets (Go `map[string]bool`). -/
structure St where
  relays : List (String × RelayInfo)
  crawled : List String
  offline : List String
deriving DecidableEq

/-- One `r`-tag of `parseRelayList`: shape checks, the `.onion` and
scheme filters, registration under the storage key, then the
`crawledRelays` check deciding whether `go CrawlRelay(...)` is spawned
(the spawned key is returned). -/
def processTag (st : St) (disc : String) (tag : List String) : St × Option String :=
  match tag with
  | t0 :: u :: _ =>
    if t0 == "r" then
      match storageKey u with
      | none => (st, none)
      | some k =>
        let st1 := { st with relays := registerRelay st.relays k disc }
        if memStr st1.crawled k then (st1, none) else (st1, some k)
    else (st, none)
  | _ => (st, none)

/-- All tags of one EVENT message, in order, accumulating the spawned
`CrawlRelay` calls. -/
def processTags (st : St) (disc : String) : List (List String) → St × List String
  | [] => (st, [])
  | tag :: rest =>
    let p := processTag st disc tag
    let q := processTags p.1 disc rest
    (q.1, (match p.2 with | some k => [k] | none => []) ++ q.2)

/-- Whether the attempt loop of `CrawlRelay` reaches a success, trying
`res i` for `i` from the given start index for the given number of
remaining iterations, stopping at the first success. -/
def attemptsSucceed (res : Nat → Bool) : Nat → Nat → Bool
  | _, 0 => false
  | i, rem + 1 => res i || attemptsSucceed res (i + 1) rem

/-- Source `main.go CrawlRelay`, whole-call effect on the shared state:
depth guard, `wss://` guard, exclusion guard, then the mutex-guarded
test-and-set on `crawledRelays` keyed by the normalized URL; the winner
runs the attempt loop and calls `markRelayOffline` only when every
attempt failed.  `res i` is the outcome of attempt `i`; the child
registrations a successful fetch performs touch only the `relays` map and
are modelled separately by `processTags`. -/
def crawlRelayRun (st : St) (url : String) (maxDepth maxRetries : Nat)
    (res : Nat → Bool) : St :=
  if maxDepth == 0 then st
  else if !strStarts url "wss://" then st
  else if shouldExcludeRelay url then st
  else
    let n := normalizeURL url
    if memStr st.crawled n then st
    else
      let st1 := { st with crawled := n :: st.crawled }
      if attemptsSucceed res 0 maxRetries then st1
      else { st1 with offline := n :: st1.offline }

/-- Gate part of `CrawlRelay` in isolation: whether a call dispatched for
`url` at the given depth gets past the guards and the `crawledRelays`
test-and-set, together with the updated `crawledRelays` set.  Only a call
that returns `true` here proceeds to `connectAndFetch`. -/
def crawlRelayEnters (crawled : List String) (url : String) (maxDepth : Nat) :
    Bool × List String :=
  if maxDepth == 0 then (false, crawled)
  else if !strStarts url "wss://" then (false, crawled)
  else if shouldExcludeRelay url then (false, crawled)
  else
    let n := normalizeURL url
    if memStr crawled n then (false, crawled) else (true, n :: crawled)

/-- Serialized run of any sequence of `CrawlRelay` dispatches (url with
depth).  The `crawledMutex` makes the test-and-set atomic, so any
concurrent execution of the gates linearizes to such a sequence.  Returns
the per-dispatch verdicts and the final `crawledRelays` set. -/
def runDispatches (crawled : List String) :
    List (String × Nat) → List (String × Bool) × List String
  | [] => ([], crawled)
  | (u, d) :: rest =>
    let p := crawlRelayEnters crawled u d
    let q := runDispatches p.2 rest
    ((u, p.1) :: q.1, q.2)

/-- Number of dispatches in a verdict log that reached the fetch for the
given normalized key. -/
def fetchCount (k : String) (log : List (String × Bool)) : Nat :=
  (log.filter (fun p => normalizeURL p.1 == k && p.2)).length

/-- Source `main.go allOnlineRelaysCrawled`: false exactly when some
registered relay is neither in `offlineRelays` nor in `crawledRelays`. -/
def allOnlineRelaysCrawled (st : St) : Bool :=
  st.relays.all (fun p => memStr st.offline p.1 || memStr st.crawled p.1)

/-- Completion predicate in the claim's wording: every registered relay
is crawled, offline, or of an excluded category.  The category notion is
the repository's own final classifier. -/
def claimCompleted (st : St) : Bool :=
  st.relays.all (fun p => memStr st.offline p.1 || memStr st.crawled p.1
    || !(Crawlr2.classifyRelay p.1 == Crawlr2.RelayCategory.clearOnline))

/-- Mutating operations of the main.go program on its shared state:
`parseRelayList` registration, the `crawledRelays` insertion of
`CrawlRelay`, and `markRelayOffline`. -/
inductive SysOp where
  | register (url disc : String)
  | markCrawled (url : String)
  | markOffline (url : String)

/-- Effect of one operation. -/
def applyOp (st : St) : SysOp → St
  | .register u d => { st with relays := registerRelay st.relays u d }
  | .markCrawled u => { st with crawled := u :: st.crawled }
  | .markOffline u => { st with offline := u :: st.offline }

/-- Effect of a sequence of operations. -/
def runOps (st : St) : List SysOp → St
  | [] => st
  | op :: t => runOps (applyOp st op) t

/-- Discovery count currently recorded for a key (0 when absent). -/
def countAt (st : St) (key : String) : Nat :=
  match lookupRelay st.relays key with
  | some r => r.count
  | none => 0

/-- Fetch tasks spawned by one `parseRelayList` call: one `go
CrawlRelay(url, ..., 2)` per fresh registered URL, with no admission gate
between the spawn and `connectAndFetch`. -/
def spawnedFetches (st : St) (disc : String) (tags : List (List String)) :
    List String :=
  (processTags st disc tags).2

/-- Number of entries of a verdict log that entered the fetch. -/
def enteredCount (log : List (String × Bool)) : Nat :=
  (log.filter (fun p => p.2)).length

/-- Peak number of simultaneously in-flight fetches reachable from one
`parseRelayList` call: the spawned goroutines run concurrently and the
only serialization between spawn and socket is the per-URL test-and-set
gate, so every gate-winning task can sit inside `connectAndFetch` at the
same moment.  Counts the gate winners among the spawned tasks. -/
def concurrentFetchPeak (st : St) (disc : String) (tags : List (List String))
    (depth : Nat) : Nat :=
  enteredCount ((runDispatches st.crawled
    ((spawnedFetches st disc tags).map (fun u => (u, depth)))).1)

end Main1


/-- Helper: an ASCII digit is not an ASCII letter, so an all-digit final
label can never satisfy the TLD regular expression. -/
theorem charIsDigit_not_alpha (c : Char) (h : charIsDigit c = true) :
    charIsAlpha c = false := by
  simp [charIsDigit, charIsAlpha] at *
  omega

/-- Helper: a host accepted by the modelled `net.ParseIP` fails the TLD
check, because its final dot-separated label is a nonempty digit string. -/
theorem parseIPv4_hasValidTLD_false (h : String) (ip : Nat × Nat × Nat × Nat)
    (hp : Crawlr2.parseIPv4 h = some ip) : Crawlr2.hasValidTLD h = false := by
  unfold Crawlr2.parseIPv4 at hp
  unfold Crawlr2.hasValidTLD
  cases e : dotParts h with
  | nil => simp [e] at hp
  | cons a t =>
    cases t with
    | nil => simp [e] at hp
    | cons b t2 =>
      cases t2 with
      | nil => simp [e] at hp
      | cons c t3 =>
        cases t3 with
        | nil => simp [e] at hp
        | cons d t4 =>
          cases t4 with
          | cons x t5 => simp [e] at hp
          | nil =>
            rw [e] at hp
            simp only at hp
            have hd : ∃ w, Crawlr2.parseOctet d = some w := by
              cases ha : Crawlr2.parseOctet a <;> rw [ha] at hp <;>
                cases hb : Crawlr2.parseOctet b <;> rw [hb] at hp <;>
                  cases hc : Crawlr2.parseOctet c <;> rw [hc] at hp <;>
                    cases hdd : Crawlr2.parseOctet d <;> rw [hdd] at hp <;>
                      simp_all
            obtain ⟨w, hw⟩ := hd
            unfold Crawlr2.parseOctet at hw
            by_cases hcond : (d.isEmpty || !d.all charIsDigit
                || (1 < d.length && d.headD '0' == '0')) = true
            · rw [if_pos hcond] at hw; exact absurd hw (by simp)
            · have hne : d ≠ [] := by
                intro hnil
                apply hcond
                simp [hnil]
              have hdig : d.all charIsDigit = true := by
                rcases hall : d.all charIsDigit
                · exact absurd (by simp [hall]) hcond
                · rfl
              cases d with
              | nil => exact absurd rfl hne
              | cons c0 rest =>
                have hc0 : charIsDigit c0 = true := by
                  simp [List.all_cons] at hdig
                  exact hdig.1
                have hca : charIsAlpha c0 = false := charIsDigit_not_alpha c0 hc0
                simp [Crawlr2.lastPart, List.all_cons, hca]

/-- C3 counterexample.  The claim says a `ws://` URL whose host is an
RFC1918 private IPv4 literal is classified Local; on the cited code
`ws://192.168.1.5` is classified Malformed instead, because the TLD check
of `isMalformedRelay` runs before `isLocalRelay` and a dotted-quad host
has no alphabetic top-level label.  The last conjunct records that the
address is indeed inside the RFC1918 space recognised by the same file's
`isReservedIP`. -/
theorem classify_private_ip_malformed_cex :
    Crawlr2.classifyRelay "ws://192.168.1.5" = Crawlr2.RelayCategory.malformed ∧
    Crawlr2.classifyRelay "ws://192.168.1.5" ≠ Crawlr2.RelayCategory.local ∧
    Crawlr2.isReservedIP (192, 168, 1, 5) = true := by
  refine ⟨by decide, by decide, by decide⟩

/-- C3 amended: any URL whose parsed host is an IPv4 literal — private,
loopback, reserved or public alike — is classified Malformed by
`classifyRelay`, because the TLD regular expression check inside
`isMalformedRelay` precedes the IP check of `isLocalRelay` and an
all-digit final label cannot match `\.[a-zA-Z]{2,}$`.  Such an address is
therefore still excluded, but as Malformed, never as Local. -/
theorem classify_ipv4_literal_malformed (u : String) (ip : Nat × Nat × Nat × Nat)
    (hp : Crawlr2.parseIPv4 (goHostname (Crawlr2.normalizeURL u)) = some ip) :
    Crawlr2.classifyRelay u = Crawlr2.RelayCategory.malformed := by
  unfold Crawlr2.classifyRelay
  have htld := parseIPv4_hasValidTLD_false _ _ hp
  have hm : Crawlr2.isMalformedRelay (Crawlr2.normalizeURL u) = true := by
    unfold Crawlr2.isMalformedRelay
    rw [htld]
    simp
  simp only [hm]
  rfl

/-- C3 witness: the amended theorem applied at `ws://192.168.1.5`. -/
theorem classify_ipv4_literal_malformed_witness :
    Crawlr2.classifyRelay "ws://192.168.1.5" = Crawlr2.RelayCategory.malformed :=
  classify_ipv4_literal_malformed "ws://192.168.1.5" (192, 168, 1, 5) (by decide)
/-- Helper: the gate of `CrawlRelay` either rejects and leaves
`crawledRelays` unchanged, or wins the test-and-set, which requires the
normalized URL to be absent and inserts it. -/
theorem crawlRelayEnters_cases (c : List String) (u : String) (d : Nat) :
    Main1.crawlRelayEnters c u d = (false, c) ∨
    (memStr c (Main1.normalizeURL u) = false ∧
      Main1.crawlRelayEnters c u d = (true, Main1.normalizeURL u :: c)) := by
  unfold Main1.crawlRelayEnters
  by_cases h1 : (d == 0) = true
  · left; simp [h1]
  · by_cases h2 : strStarts u "wss://" = true
    · by_cases h3 : Main1.shouldExcludeRelay u = true
      · left; simp [h1, h2, h3]
      · by_cases h4 : memStr c (Main1.normalizeURL u) = true
        · left; simp [h1, h2, h3, h4]
        · right
          refine ⟨by simpa using h4, ?_⟩
          simp [h1, h2, h3, h4]
    · left; simp [h1, h2]

/-- Helper: along any serialized sequence of `CrawlRelay` dispatches, the
number that reach the fetch for a given normalized key is zero when the
key is already in `crawledRelays` and at most one otherwise. -/
theorem runDispatches_at_most_once (ds : List (String × Nat)) :
    ∀ (c : List String) (k : String),
      Main1.fetchCount k (Main1.runDispatches c ds).1 ≤
        (if memStr c k = true then 0 else 1) := by
  induction ds with
  | nil =>
    intro c k
    simp only [Main1.runDispatches, Main1.fetchCount, List.filter_nil, List.length_nil]
    split <;> omega
  | cons hd tl ih =>
    intro c k
    obtain ⟨u, d⟩ := hd
    rcases crawlRelayEnters_cases c u d with he | ⟨hmem, he⟩
    · have hr : Main1.runDispatches c ((u, d) :: tl) =
          ((u, false) :: (Main1.runDispatches c tl).1, (Main1.runDispatches c tl).2) := by
        simp [Main1.runDispatches, he]
      rw [hr]
      have hc := ih c k
      simpa [Main1.fetchCount] using hc
    · have hr : Main1.runDispatches c ((u, d) :: tl) =
          ((u, true) :: (Main1.runDispatches (Main1.normalizeURL u :: c) tl).1,
            (Main1.runDispatches (Main1.normalizeURL u :: c) tl).2) := by
        simp [Main1.runDispatches, he]
      rw [hr]
      by_cases hk : (Main1.normalizeURL u == k) = true
      · have hkk : Main1.normalizeURL u = k := by simpa using hk
        have h2 := ih (Main1.normalizeURL u :: c) k
        have hmm : memStr (Main1.normalizeURL u :: c) k = true := by
          simp [memStr, hk]
        rw [if_pos hmm] at h2
        have hcf : memStr c k = false := hkk ▸ hmem
        have hlen : Main1.fetchCount k
            ((u, true) :: (Main1.runDispatches (Main1.normalizeURL u :: c) tl).1) =
            Main1.fetchCount k (Main1.runDispatches (Main1.normalizeURL u :: c) tl).1 + 1 := by
          simp [Main1.fetchCount, List.filter_cons, hk]
        rw [hlen]
        simp only [hcf, Bool.false_eq_true, if_false]
        omega
      · have hkb : (Main1.normalizeURL u == k) = false := by
          simpa using hk
        have h2 := ih (Main1.normalizeURL u :: c) k
        have hmm : memStr (Main1.normalizeURL u :: c) k = memStr c k := by
          simp [memStr, hkb]
        rw [hmm] at h2
        simp only [Main1.fetchCount, List.filter_cons, hkb, Bool.false_and] at *
        simpa using h2

/-- C1: across any serialized history of `CrawlRelay` dispatches — any
mix of seeds and rediscoveries, in any order, from any prior
`crawledRelays` state — at most one dispatch per normalized URL gets past
the mutex-guarded test-and-set into `connectAndFetch`.  The winner runs
its attempts sequentially inside one call, so no two fetch attempts for
the same relay ever overlap, and a relay advertised by several
discoverers is fetched at most once per run. -/
theorem crawl_relay_fetched_at_most_once (crawled : List String)
    (ds : List (String × Nat)) (k : String) :
    Main1.fetchCount k (Main1.runDispatches crawled ds).1 ≤ 1 := by
  have h := runDispatches_at_most_once ds crawled k
  split at h <;> omega

/-- C4 counterexample.  The claim says no reachable state records a relay
both as crawled and as offline; but `CrawlRelay` inserts the normalized
URL into `crawledRelays` as its dispatch gate before any attempt is made,
and a permanently failing relay is afterwards also inserted into
`offlineRelays`, so the relay `wss://r.example.com` (two failing
attempts, the source constant maxRetries = 2) ends recorded in both. -/
theorem failed_relay_marked_both_cex :
    memStr (Main1.crawlRelayRun ⟨[], [], []⟩ "wss://r.example.com" 3 2
      (fun _ => false)).crawled "wss://r.example.com" = true ∧
    memStr (Main1.crawlRelayRun ⟨[], [], []⟩ "wss://r.example.com" 3 2
      (fun _ => false)).offline "wss://r.example.com" = true := by
  exact ⟨by decide, by decide⟩

/-- C4 amended: a fully processed non-excluded relay always ends in
`crawledRelays` (the flag doubles as the dispatch marker, set before the
attempt loop), and ends in `offlineRelays` exactly when every attempt
failed; so it ends in at least one of the two maps, and in both — not
exactly one — when permanently failing. -/
theorem crawl_relay_terminal_marks (st : Main1.St) (url : String)
    (depth mr : Nat) (res : Nat → Bool)
    (hd : (depth == 0) = false)
    (hw : strStarts url "wss://" = true)
    (hx : Main1.shouldExcludeRelay url = false)
    (hc : memStr st.crawled (Main1.normalizeURL url) = false)
    (ho : memStr st.offline (Main1.normalizeURL url) = false) :
    memStr (Main1.crawlRelayRun st url depth mr res).crawled
      (Main1.normalizeURL url) = true ∧
    (memStr (Main1.crawlRelayRun st url depth mr res).offline
        (Main1.normalizeURL url) = true ↔
      Main1.attemptsSucceed res 0 mr = false) := by
  unfold Main1.crawlRelayRun
  simp only [hd, hw, hx, hc, Bool.not_true, if_neg, Bool.false_eq_true,
    not_false_eq_true, if_false]
  cases hs : Main1.attemptsSucceed res 0 mr <;>
    simp [hs, memStr, ho]

/-- C4 witness: the amended theorem at a relay whose first attempt
succeeds — it is marked crawled and not offline. -/
theorem crawl_relay_terminal_marks_witness :
    memStr (Main1.crawlRelayRun ⟨[], [], []⟩ "wss://w.example.com" 3 2
      (fun _ => true)).crawled (Main1.normalizeURL "wss://w.example.com") = true ∧
    (memStr (Main1.crawlRelayRun ⟨[], [], []⟩ "wss://w.example.com" 3 2
        (fun _ => true)).offline (Main1.normalizeURL "wss://w.example.com") = true ↔
      Main1.attemptsSucceed (fun _ => true) 0 2 = false) :=
  crawl_relay_terminal_marks ⟨[], [], []⟩ "wss://w.example.com" 3 2 (fun _ => true)
    (by decide) (by decide) (by decide) (by decide) (by decide)

/-- C5 counterexample.  The claim says the completion predicate is true
as soon as every registered relay is crawled, offline, or excluded; but
`allOnlineRelaysCrawled` never consults categories.  Processing an EVENT
tag advertising `ws://192.168.1.5` registers that relay (parseRelayList
filters only `.onion` and non-ws schemes), while `CrawlRelay` returns
early for it — it is not `wss://` and it is excluded — without marking it
crawled or offline.  The resulting state has a registered, excluded,
never-markable relay: the claim predicate is true, yet the code predicate
is false (and stays false, so the crawl never reports completion). -/
theorem completion_ignores_excluded_cex :
    Main1.allOnlineRelaysCrawled
      (Main1.processTags ⟨[], [], []⟩ "wss://seed.example.com"
        [["r", "ws://192.168.1.5"]]).1 = false ∧
    Main1.claimCompleted
      (Main1.processTags ⟨[], [], []⟩ "wss://seed.example.com"
        [["r", "ws://192.168.1.5"]]).1 = true ∧
    (Main1.processTags ⟨[], [], []⟩ "wss://seed.example.com"
        [["r", "ws://192.168.1.5"]]).1.relays ≠ [] ∧
    Main1.crawlRelayRun
      (Main1.processTags ⟨[], [], []⟩ "wss://seed.example.com"
        [["r", "ws://192.168.1.5"]]).1 "ws://192.168.1.5" 2 2 (fun _ => false) =
      (Main1.processTags ⟨[], [], []⟩ "wss://seed.example.com"
        [["r", "ws://192.168.1.5"]]).1 := by
  exact ⟨by decide, by decide, by decide, by decide⟩

/-- C5 amended: `allOnlineRelaysCrawled` is true exactly when every
registered relay is in `offlineRelays` or in `crawledRelays`; excluded
categories give no exemption, so a registered excluded relay does
prevent completion. -/
theorem all_online_relays_crawled_iff (st : Main1.St) :
    Main1.allOnlineRelaysCrawled st = true ↔
      ∀ p ∈ st.relays, memStr st.offline p.1 = true ∨ memStr st.crawled p.1 = true := by
  simp [Main1.allOnlineRelaysCrawled, List.all_eq_true, Bool.or_eq_true]

/-- Helper: looking a key up after `bumpCount` on that key increments
exactly the stored count. -/
theorem lookupRelay_bumpCount_self (rs : List (String × Main1.RelayInfo))
    (key : String) :
    Main1.lookupRelay (Main1.bumpCount rs key) key =
      (Main1.lookupRelay rs key).map (fun r => { r with count := r.count + 1 }) := by
  induction rs with
  | nil => simp [Main1.bumpCount, Main1.lookupRelay]
  | cons hd tl ih =>
    obtain ⟨k, r⟩ := hd
    by_cases h : (k == key) = true
    · simp [Main1.bumpCount, Main1.lookupRelay, h]
    · have hb : (k == key) = false := by simpa using h
      simp [Main1.bumpCount, Main1.lookupRelay, hb, ih]

/-- Helper: `bumpCount` leaves every other key untouched. -/
theorem lookupRelay_bumpCount_other (rs : List (String × Main1.RelayInfo))
    (key k2 : String) (h : (key == k2) = false) :
    Main1.lookupRelay (Main1.bumpCount rs key) k2 = Main1.lookupRelay rs k2 := by
  induction rs with
  | nil => simp [Main1.bumpCount, Main1.lookupRelay]
  | cons hd tl ih =>
    obtain ⟨k, r⟩ := hd
    by_cases h1 : (k == key) = true
    · have hk : k = key := by simpa using h1
      have h2 : (k == k2) = false := by
        subst hk
        exact h
      simp [Main1.bumpCount, Main1.lookupRelay, h1, h2]
    · have h1b : (k == key) = false := by simpa using h1
      by_cases h2 : (k == k2) = true
      · simp [Main1.bumpCount, Main1.lookupRelay, h1b, h2]
      · have h2b : (k == k2) = false := by simpa using h2
        simp [Main1.bumpCount, Main1.lookupRelay, h1b, h2b, ih]

/-- Helper: lookup distributes over append, preferring the left list. -/
theorem lookupRelay_append (rs1 rs2 : List (String × Main1.RelayInfo)) (k : String) :
    Main1.lookupRelay (rs1 ++ rs2) k =
      (match Main1.lookupRelay rs1 k with
       | some r => some r
       | none => Main1.lookupRelay rs2 k) := by
  induction rs1 with
  | nil => simp [Main1.lookupRelay]
  | cons hd tl ih =>
    obtain ⟨k1, r⟩ := hd
    by_cases h : (k1 == k) = true
    · simp [Main1.lookupRelay, h]
    · have hb : (k1 == k) = false := by simpa using h
      simp [Main1.lookupRelay, hb, ih]

/-- Helper: registering an absent key creates the fresh record. -/
theorem lookupRelay_register_new (rs : List (String × Main1.RelayInfo))
    (key disc : String) (h : Main1.lookupRelay rs key = none) :
    Main1.lookupRelay (Main1.registerRelay rs key disc) key =
      some ⟨key, 1, disc, false⟩ := by
  unfold Main1.registerRelay
  rw [h, lookupRelay_append, h]
  simp [Main1.lookupRelay]

/-- Helper: registering a present key increments its count. -/
theorem lookupRelay_register_present (rs : List (String × Main1.RelayInfo))
    (key disc : String) (r : Main1.RelayInfo)
    (h : Main1.lookupRelay rs key = some r) :
    Main1.lookupRelay (Main1.registerRelay rs key disc) key =
      some { r with count := r.count + 1 } := by
  unfold Main1.registerRelay
  rw [h, lookupRelay_bumpCount_self, h]
  rfl

/-- Helper: registration leaves every other key untouched. -/
theorem lookupRelay_register_other (rs : List (String × Main1.RelayInfo))
    (key disc k2 : String) (h : (key == k2) = false) :
    Main1.lookupRelay (Main1.registerRelay rs key disc) k2 =
      Main1.lookupRelay rs k2 := by
  unfold Main1.registerRelay
  cases hl : Main1.lookupRelay rs key with
  | some r => exact lookupRelay_bumpCount_other rs key k2 h
  | none =>
    rw [lookupRelay_append]
    cases hl2 : Main1.lookupRelay rs k2 with
    | some r2 => rfl
    | none => simp [Main1.lookupRelay, h]

/-- Helper: no single operation decreases a discovery count. -/
theorem countAt_applyOp (st : Main1.St) (op : Main1.SysOp) (key : String) :
    Main1.countAt st key ≤ Main1.countAt (Main1.applyOp st op) key := by
  cases op with
  | markCrawled u => exact Nat.le_refl _
  | markOffline u => exact Nat.le_refl _
  | register u d =>
    by_cases h : (u == key) = true
    · have hu : u = key := by simpa using h
      subst hu
      cases hl : Main1.lookupRelay st.relays u with
      | none =>
        simp [Main1.countAt, Main1.applyOp, hl]
      | some r =>
        simp [Main1.countAt, Main1.applyOp, hl,
          lookupRelay_register_present st.relays u d r hl]
    · have hb : (u == key) = false := by simpa using h
      simp [Main1.countAt, Main1.applyOp,
        lookupRelay_register_other st.relays u d key hb]

/-- Helper: no sequence of operations decreases a discovery count. -/
theorem countAt_runOps (ops : List Main1.SysOp) :
    ∀ (st : Main1.St) (key : String),
      Main1.countAt st key ≤ Main1.countAt (Main1.runOps st ops) key := by
  induction ops with
  | nil => intro st key; exact Nat.le_refl _
  | cons op t ih =>
    intro st key
    exact Nat.le_trans (countAt_applyOp st op key) (ih (Main1.applyOp st op) key)

/-- C6: registering an absent URL creates exactly one record with
discoveryCount 1; registering a present URL increments its count by
exactly one; and no operation of the program — registration, marking
crawled, marking offline — ever decreases any discovery count, so each
count is monotonically non-decreasing over the run. -/
theorem register_relay_discovery_count (st : Main1.St) (key disc : String) :
    (Main1.lookupRelay st.relays key = none →
      Main1.lookupRelay (Main1.registerRelay st.relays key disc) key =
        some ⟨key, 1, disc, false⟩) ∧
    (∀ r, Main1.lookupRelay st.relays key = some r →
      Main1.lookupRelay (Main1.registerRelay st.relays key disc) key =
        some { r with count := r.count + 1 }) ∧
    (∀ ops : List Main1.SysOp,
      Main1.countAt st key ≤ Main1.countAt (Main1.runOps st ops) key) :=
  ⟨fun h => lookupRelay_register_new st.relays key disc h,
   fun r h => lookupRelay_register_present st.relays key disc r h,
   fun ops => countAt_runOps ops st key⟩

/-- C6 witness: the theorem applied at an empty and at a one-entry
registry. -/
theorem register_relay_discovery_count_witness :
    Main1.lookupRelay (Main1.registerRelay [] "wss://a.example.com" "seed")
      "wss://a.example.com" = some ⟨"wss://a.example.com", 1, "seed", false⟩ ∧
    Main1.lookupRelay
      (Main1.registerRelay
        [("wss://a.example.com", ⟨"wss://a.example.com", 1, "seed", false⟩)]
        "wss://a.example.com" "wss://b.example.com")
      "wss://a.example.com" = some ⟨"wss://a.example.com", 2, "seed", false⟩ :=
  ⟨(register_relay_discovery_count ⟨[], [], []⟩ "wss://a.example.com" "seed").1 rfl,
   (register_relay_discovery_count
      ⟨[("wss://a.example.com", ⟨"wss://a.example.com", 1, "seed", false⟩)], [], []⟩
      "wss://a.example.com" "wss://b.example.com").2.1
      ⟨"wss://a.example.com", 1, "seed", false⟩ rfl⟩

/-- Helper: one operation can change a stored record only by bumping its
count; URL and discoverer survive. -/
theorem applyOp_keeps_fields (st : Main1.St) (op : Main1.SysOp) (key : String)
    (r : Main1.RelayInfo) (h : Main1.lookupRelay st.relays key = some r) :
    ∃ r1, Main1.lookupRelay (Main1.applyOp st op).relays key = some r1 ∧
      r1.url = r.url ∧ r1.discoveredBy = r.discoveredBy := by
  cases op with
  | markCrawled u => exact ⟨r, h, rfl, rfl⟩
  | markOffline u => exact ⟨r, h, rfl, rfl⟩
  | register u d =>
    by_cases hu : (u == key) = true
    · have he : u = key := by simpa using hu
      subst he
      exact ⟨{ r with count := r.count + 1 },
        lookupRelay_register_present st.relays u d r h, rfl, rfl⟩
    · have hb : (u == key) = false := by simpa using hu
      refine ⟨r, ?_, rfl, rfl⟩
      rw [Main1.applyOp]
      rw [lookupRelay_register_other st.relays u d key hb]
      exact h

/-- Helper: across any operation sequence, a record's URL and discoverer
never change once set. -/
theorem runOps_keeps_fields (ops : List Main1.SysOp) :
    ∀ (st : Main1.St) (key : String) (r : Main1.RelayInfo),
      Main1.lookupRelay st.relays key = some r →
      ∃ r2, Main1.lookupRelay (Main1.runOps st ops).relays key = some r2 ∧
        r2.url = r.url ∧ r2.discoveredBy = r.discoveredBy := by
  induction ops with
  | nil => intro st key r h; exact ⟨r, h, rfl, rfl⟩
  | cons op t ih =>
    intro st key r h
    obtain ⟨r1, h1, hu1, hd1⟩ := applyOp_keeps_fields st op key r h
    obtain ⟨r2, h2, hu2, hd2⟩ := ih (Main1.applyOp st op) key r1 h1
    exact ⟨r2, h2, hu2.trans hu1, hd2.trans hd1⟩

/-- C10: registering an already-known URL touches only the count of that
one record — its URL and DiscoveredBy fields are returned unchanged, all
other keys read the same as before — and no later operation of the
program ever rewrites the URL or the discoverer recorded at first
registration. -/
theorem register_existing_preserves_fields
    (rs : List (String × Main1.RelayInfo)) (key disc : String)
    (r : Main1.RelayInfo) (h : Main1.lookupRelay rs key = some r) :
    Main1.lookupRelay (Main1.registerRelay rs key disc) key =
      some ⟨r.url, r.count + 1, r.discoveredBy, r.offline⟩ ∧
    (∀ k2, (key == k2) = false →
      Main1.lookupRelay (Main1.registerRelay rs key disc) k2 =
        Main1.lookupRelay rs k2) ∧
    (∀ (crawled offline : List String) (ops : List Main1.SysOp),
      ∃ r2,
        Main1.lookupRelay (Main1.runOps ⟨rs, crawled, offline⟩ ops).relays key =
          some r2 ∧ r2.url = r.url ∧ r2.discoveredBy = r.discoveredBy) :=
  ⟨lookupRelay_register_present rs key disc r h,
   fun k2 hk2 => lookupRelay_register_other rs key disc k2 hk2,
   fun crawled offline ops => runOps_keeps_fields ops ⟨rs, crawled, offline⟩ key r h⟩

/-- C10 witness: the first two conjuncts of the theorem at a two-entry
registry, instantiated at a concrete rediscovery. -/
theorem register_existing_preserves_fields_witness :
    Main1.lookupRelay
      (Main1.registerRelay
        [("wss://a.example.com", ⟨"wss://a.example.com", 1, "seed", false⟩),
         ("wss://b.example.com", ⟨"wss://b.example.com", 4, "wss://a.example.com", false⟩)]
        "wss://b.example.com" "wss://c.example.com")
      "wss://b.example.com" =
      some ⟨"wss://b.example.com", 5, "wss://a.example.com", false⟩ ∧
    Main1.lookupRelay
      (Main1.registerRelay
        [("wss://a.example.com", ⟨"wss://a.example.com", 1, "seed", false⟩),
         ("wss://b.example.com", ⟨"wss://b.example.com", 4, "wss://a.example.com", false⟩)]
        "wss://b.example.com" "wss://c.example.com")
      "wss://a.example.com" =
      Main1.lookupRelay
        [("wss://a.example.com", ⟨"wss://a.example.com", 1, "seed", false⟩),
         ("wss://b.example.com", ⟨"wss://b.example.com", 4, "wss://a.example.com", false⟩)]
        "wss://a.example.com" :=
  ⟨(register_existing_preserves_fields
      [("wss://a.example.com", ⟨"wss://a.example.com", 1, "seed", false⟩),
       ("wss://b.example.com", ⟨"wss://b.example.com", 4, "wss://a.example.com", false⟩)]
      "wss://b.example.com" "wss://c.example.com"
      ⟨"wss://b.example.com", 4, "wss://a.example.com", false⟩ (by decide)).1,
   (register_existing_preserves_fields
      [("wss://a.example.com", ⟨"wss://a.example.com", 1, "seed", false⟩),
       ("wss://b.example.com", ⟨"wss://b.example.com", 4, "wss://a.example.com", false⟩)]
      "wss://b.example.com" "wss://c.example.com"
      ⟨"wss://b.example.com", 4, "wss://a.example.com", false⟩ (by decide)).2.1
      "wss://a.example.com" (by decide)⟩

/-- Helper: a URL that survives the filters of `parseRelayList` is filed
under scheme `ws` or `wss`. -/
theorem keyPair_scheme (u : String) (p : String × String)
    (h : Main1.keyPair u = some p) : p.1 = "ws" ∨ p.1 = "wss" := by
  unfold Main1.keyPair at h
  by_cases h1 : strEnds u ".onion" = true
  · simp [h1] at h
  · by_cases h2 : strStarts u "ws://" = true
    · simp [h1, h2] at h
      left
      rw [← h]
    · by_cases h3 : strStarts u "wss://" = true
      · simp [h1, h2, h3] at h
        right
        rw [← h]
      · simp [h1, h2, h3] at h

/-- Helper: the two scheme markers never build the same key string. -/
theorem mkKey_ws_ne_wss (a b : String) : Main1.mkKey ("ws", a) ≠ Main1.mkKey ("wss", b) := by
  intro h
  have hd := congrArg String.data h
  simp [Main1.mkKey, String.data_append] at hd

/-- Helper: equal keys with equal scheme markers have equal hosts. -/
theorem mkKey_cancel_ws (a b : String) (h : Main1.mkKey ("ws", a) = Main1.mkKey ("ws", b)) :
    a = b := by
  have hd := congrArg String.data h
  simp [Main1.mkKey, String.data_append] at hd
  exact String.ext hd

/-- Helper: equal keys with equal scheme markers have equal hosts. -/
theorem mkKey_cancel_wss (a b : String)
    (h : Main1.mkKey ("wss", a) = Main1.mkKey ("wss", b)) : a = b := by
  have hd := congrArg String.data h
  simp [Main1.mkKey, String.data_append] at hd
  exact String.ext hd

/-- C7 counterexample.  The claim says the storage identifier is the
lowercased, slash-stripped normalization, preserving port and path; but
`parseRelayList` rebuilds the key as `scheme://hostname`, dropping port
and path.  So `wss://relay.example.com:443` is stored under
`wss://relay.example.com`, not under its normalization, and it collides
with the differently-normalized `wss://relay.example.com`. -/
theorem storage_key_not_normalization_cex :
    Main1.storageKey "wss://relay.example.com:443" = some "wss://relay.example.com" ∧
    Main1.storageKey "wss://relay.example.com:443" ≠
      some (Main1.normalizeURL "wss://relay.example.com:443") ∧
    Main1.storageKey "wss://relay.example.com" =
      Main1.storageKey "wss://relay.example.com:443" ∧
    Main1.normalizeURL "wss://relay.example.com" ≠
      Main1.normalizeURL "wss://relay.example.com:443" := by
  exact ⟨by decide, by decide, by decide, by decide⟩

/-- C7 amended: the identifier under which `parseRelayList` files a
discovered URL is `scheme://hostname` — port and path dropped, host case
preserved — and two surviving URLs share one relay record exactly when
their (scheme, hostname) pairs are equal.  The lowercase, slash-stripping
`normalizeURL` keys only the crawled and offline bookkeeping inside
`CrawlRelay`. -/
theorem storage_key_same_record_iff (u1 u2 : String) (p1 p2 : String × String)
    (h1 : Main1.keyPair u1 = some p1) (h2 : Main1.keyPair u2 = some p2) :
    (Main1.mkKey p1 = Main1.mkKey p2 ↔ p1 = p2) := by
  constructor
  · intro h
    obtain ⟨s1, a1⟩ := p1
    obtain ⟨s2, a2⟩ := p2
    rcases keyPair_scheme u1 (s1, a1) h1 with hs1 | hs1 <;>
      rcases keyPair_scheme u2 (s2, a2) h2 with hs2 | hs2 <;>
        simp only at hs1 hs2 <;> subst hs1 <;> subst hs2
    · rw [mkKey_cancel_ws a1 a2 h]
    · exact absurd h (mkKey_ws_ne_wss a1 a2)
    · exact absurd h.symm (mkKey_ws_ne_wss a2 a1)
    · rw [mkKey_cancel_wss a1 a2 h]
  · intro h
    rw [h]

/-- C7 witness: the amended theorem at `wss://A.example.com:443/x` and
`ws://a.example.com`, whose records differ. -/
theorem storage_key_same_record_iff_witness :
    (Main1.mkKey ("wss", "A.example.com") = Main1.mkKey ("ws", "a.example.com") ↔
      (("wss", "A.example.com") : String × String) = ("ws", "a.example.com")) :=
  storage_key_same_record_iff "wss://A.example.com:443/x" "ws://a.example.com"
    ("wss", "A.example.com") ("ws", "a.example.com") (by decide) (by decide)

/-- Helper: when every attempt fails, the `CrawlRelay` loop emits exactly
the claimed pattern, whatever the loop index it starts at. -/
theorem crawlRelayFrom_all_fail (res : Nat → Bool) (hres : ∀ i, res i = false) :
    ∀ (rem retry : Nat),
      Main1.crawlRelayFrom res retry rem = Main1.claimRetryTrace rem := by
  intro rem
  induction rem with
  | zero => intro retry; rfl
  | succ r ih =>
    intro retry
    cases r with
    | zero =>
      simp [Main1.crawlRelayFrom, Main1.claimRetryTrace, hres retry]
    | succ r2 =>
      simp only [Main1.crawlRelayFrom, Main1.claimRetryTrace, hres retry,
        Bool.false_eq_true, if_false, Nat.zero_lt_succ, if_pos,
        List.cons_append, List.nil_append, List.cons.injEq, true_and]
      exact ih (retry + 1)

/-- C2 (amended to `main.go CrawlRelay`, where the claim holds): for a
permanently failing relay the retry loop of `CrawlRelay` emits exactly
`maxRetries` attempts, a backoff sleep strictly between consecutive
attempts and none after the last, and the offline mark once, after all
attempts are exhausted — the trace equals the claimed pattern. -/
theorem crawl_relay_retry_trace (maxRetries : Nat) (res : Nat → Bool)
    (hres : ∀ i, res i = false) :
    Main1.crawlRelayLoopTrace maxRetries res = Main1.claimRetryTrace maxRetries :=
  crawlRelayFrom_all_fail res hres maxRetries 0

/-- C2 witness: the theorem at the source constant maxRetries = 2. -/
theorem crawl_relay_retry_trace_witness :
    Main1.crawlRelayLoopTrace 2 (fun _ => false) = Main1.claimRetryTrace 2 :=
  crawl_relay_retry_trace 2 (fun _ => false) (fun _ => rfl)

/-- C2 counterexample.  The claim also covers the scheduler loop of
`crawl.go crawlClearOnlineRelays`, and there it fails: on every failed
attempt the loop immediately moves the relay to `clearOffline`, marks it
crawled, and runs the backoff sleep — including after the final attempt.
At the source constant maxTries = 1 the trace ends in a sleep after the
last attempt, where the claimed pattern has none; at maxTries = 2 (the
constant of the `crawlr2` copy of the same loop) the offline mark already
appears after the first failed attempt, before the retry. -/
theorem crawl_clear_sleeps_after_last_attempt_cex :
    CrawlGo.crawlClearLoopTrace 1 (fun _ => false) =
      [Main1.Ev.attempt false, Main1.Ev.markOffline, Main1.Ev.markCrawled,
        Main1.Ev.sleep] ∧
    Main1.sleepAfterLastAttempt (CrawlGo.crawlClearLoopTrace 1 (fun _ => false)) =
      true ∧
    Main1.sleepAfterLastAttempt (Main1.claimRetryTrace 1) = false ∧
    CrawlGo.crawlClearLoopTrace 2 (fun _ => false) =
      [Main1.Ev.attempt false, Main1.Ev.markOffline, Main1.Ev.markCrawled,
        Main1.Ev.sleep, Main1.Ev.attempt false, Main1.Ev.markOffline,
        Main1.Ev.markCrawled, Main1.Ev.sleep] := by
  exact ⟨by decide, by decide, by decide, by decide⟩

/-- C8: evaluation of the two receive loops on the failing stream.  A
relay sends the EOSE frame, keeps the connection open (one further
message arrives), and the three-second context deadline then fires.  The
`crawlr2` loop stops at the EOSE after reading one message — the
behaviour the claim and the source comments describe — but
`receiveMessages` of `crawl.go` reads on past the EOSE and ends in a
timeout error, because `handleMessage` returns nil for EOSE and the loop
ignores that signal.  The last conjunct checks the clean-close half of
the claim: a stream ending in `io.EOF` is a success. -/
theorem receive_messages_reads_past_eose :
    Fetch.receiveMessages [Fetch.WsMsg.eose, Fetch.WsMsg.other] Fetch.WsEnd.timeout =
      (Except.error "timeout: no response from relay", 2) ∧
    Fetch.reqKind10002Reads [Fetch.WsMsg.eose, Fetch.WsMsg.other] = some 1 ∧
    Fetch.receiveMessages [Fetch.WsMsg.event []] Fetch.WsEnd.eof =
      (Except.ok (), 1) := by
  exact ⟨rfl, rfl, rfl⟩

/-- Helper: a realizable semaphore history never holds more than `cap`
slots at its end, starting from any in-bound count. -/
theorem runSem_le_cap (cap : Nat) :
    ∀ (tr : List Bool) (h0 h : Nat),
      h0 ≤ cap → Sched.runSem cap tr h0 = some h → h ≤ cap := by
  intro tr
  induction tr with
  | nil =>
    intro h0 h hle he
    simp [Sched.runSem] at he
    omega
  | cons b t ih =>
    intro h0 h hle he
    cases b
    · simp only [Sched.runSem] at he
      by_cases hc : 0 < h0
      · rw [if_pos hc] at he
        exact ih (h0 - 1) h (by omega) he
      · rw [if_neg hc] at he
        exact absurd he (by simp)
    · simp only [Sched.runSem] at he
      by_cases hc : h0 < cap
      · rw [if_pos hc] at he
        exact ih (h0 + 1) h (by omega) he
      · rw [if_neg hc] at he
        exact absurd he (by simp)

/-- Helper: a realizable history is realizable on every prefix. -/
theorem runSem_append (cap : Nat) :
    ∀ (pre suf : List Bool) (h0 h : Nat),
      Sched.runSem cap (pre ++ suf) h0 = some h →
      ∃ h1, Sched.runSem cap pre h0 = some h1 ∧ Sched.runSem cap suf h1 = some h := by
  intro pre
  induction pre with
  | nil => intro suf h0 h he; exact ⟨h0, rfl, he⟩
  | cons b t ih =>
    intro suf h0 h he
    cases b
    · simp only [List.cons_append, Sched.runSem] at he ⊢
      by_cases hc : 0 < h0
      · rw [if_pos hc] at he ⊢
        exact ih suf (h0 - 1) h he
      · rw [if_neg hc] at he
        exact absurd he (by simp)
    · simp only [List.cons_append, Sched.runSem] at he ⊢
      by_cases hc : h0 < cap
      · rw [if_pos hc] at he ⊢
        exact ih suf (h0 + 1) h he
      · rw [if_neg hc] at he
        exact absurd he (by simp)

/-- C9 (amended to `crawlClearOnlineRelays`, where the bound holds): in
any realizable history of the admission semaphore — each fetch task
acquires a slot before dialling and releases it afterwards — every
prefix holds at most `cap` slots, so at most `cap` fetches of that loop
are in flight at any moment. -/
theorem semaphore_bounds_inflight (cap : Nat) (pre suf : List Bool) (h : Nat)
    (hv : Sched.runSem cap (pre ++ suf) 0 = some h) :
    ∃ h1, Sched.runSem cap pre 0 = some h1 ∧ h1 ≤ cap := by
  obtain ⟨h1, hp, _⟩ := runSem_append cap pre suf 0 h hv
  exact ⟨h1, hp, runSem_le_cap cap pre 0 h1 (Nat.zero_le cap) hp⟩

/-- C9 witness: the theorem at capacity 1 on the history acquire,
release. -/
theorem semaphore_bounds_inflight_witness :
    ∃ h1, Sched.runSem 1 [true] 0 = some h1 ∧ h1 ≤ 1 :=
  semaphore_bounds_inflight 1 [true] [false] 0 (by decide)

/-- C9 counterexample.  The claim extends the bound to fetches triggered
by discoveries; but `parseRelayList` of `main.go` launches one
`go CrawlRelay(...)` per fresh URL with no admission gate anywhere on
that path, so one EVENT advertising two fresh relays puts two fetches in
flight at once — already more than a claimed limit of 1, and in general
as many as the message holds fresh URLs. -/
theorem discovery_spawn_unbounded_cex :
    Main1.spawnedFetches ⟨[], [], []⟩ "wss://seed.example.com"
      [["r", "wss://a.example.com"], ["r", "wss://b.example.com"]] =
      ["wss://a.example.com", "wss://b.example.com"] ∧
    Main1.concurrentFetchPeak ⟨[], [], []⟩ "wss://seed.example.com"
      [["r", "wss://a.example.com"], ["r", "wss://b.example.com"]] 2 = 2 ∧
    ¬(Main1.concurrentFetchPeak ⟨[], [], []⟩ "wss://seed.example.com"
      [["r", "wss://a.example.com"], ["r", "wss://b.example.com"]] 2 ≤ 1) := by
  exact ⟨by decide, by decide, by decide⟩
